import Mathlib

/-!
Verification of the naming / namespace-assembly core of `pytorch_to_returnn`
(files `naming/namespace.py` and `naming/call.py`), as a shallow embedding:
Python objects become Lean structures, mutating methods become state-passing
functions, and `assert` failures / raised exceptions become `Except.error`.

Object identity (Python `is`) is modelled by explicit numeric ids.
Collaborator modules of the repository that are not part of the analysed
sources (`naming/naming.py`, `naming/module.py`, `naming/tensor.py`,
`naming/returnn_ctx.py`) are modelled from the specification where a claim
depends on them; each such definition carries a doc comment saying so.
-/

namespace PyToReturnn

/-! ## Decimal representation of naturals

`namespace.py` builds collision-resolved names with Python f-strings such as
`f"{suggested_name}_{i}"` and `f":{idx}"`; the Lean embedding uses `Nat.repr`
for the decimal rendering.  The name-search loop of `_get_unique_name`
terminates because distinct indices render to distinct strings, so we first
prove `Nat.repr` injective via a decimal evaluation function. -/

/-- Numeric value of a decimal digit character. -/
def decDigitVal (c : Char) : Nat := c.toNat - 48

/-- Value of a big-endian list of decimal digit characters. -/
def decVal : List Char → Nat
  | [] => 0
  | c :: cs => decDigitVal c * 10 ^ cs.length + decVal cs

theorem decVal_append (l₁ l₂ : List Char) :
    decVal (l₁ ++ l₂) = decVal l₁ * 10 ^ l₂.length + decVal l₂ := by
  induction l₁ with
  | nil => simp [decVal]
  | cons c cs ih =>
    simp only [List.cons_append, decVal, List.append_eq, List.length_append, ih]
    ring

theorem decDigitVal_digitChar {n : Nat} (h : n < 10) :
    decDigitVal (Nat.digitChar n) = n := by
  interval_cases n <;> rfl

theorem toDigitsCore_append (fuel : Nat) :
    ∀ (n : Nat) (ds : List Char),
      Nat.toDigitsCore 10 fuel n ds = Nat.toDigitsCore 10 fuel n [] ++ ds := by
  induction fuel with
  | zero => intro n ds; simp [Nat.toDigitsCore]
  | succ fuel ih =>
    intro n ds
    simp only [Nat.toDigitsCore]
    by_cases h : n / 10 = 0
    · simp [h]
    · simp only [h, if_false]
      rw [ih (n / 10) [Nat.digitChar (n % 10)], ih (n / 10) (Nat.digitChar (n % 10) :: ds)]
      simp

theorem decVal_toDigitsCore (fuel : Nat) :
    ∀ n : Nat, n < fuel → decVal (Nat.toDigitsCore 10 fuel n []) = n := by
  induction fuel with
  | zero => intro n h; omega
  | succ fuel ih =>
    intro n h
    simp only [Nat.toDigitsCore]
    by_cases h0 : n / 10 = 0
    · have hn : n < 10 := by omega
      have hmod : n % 10 = n := Nat.mod_eq_of_lt hn
      simp [h0, decVal, hmod, decDigitVal_digitChar hn]
    · have hn : 0 < n := by
        rcases Nat.eq_zero_or_pos n with h' | h'
        · exfalso; apply h0; simp [h']
        · exact h'
      have hrec : n / 10 < fuel := by
        have := Nat.div_lt_self hn (by norm_num : 1 < 10)
        omega
      simp only [h0, if_false]
      rw [toDigitsCore_append fuel (n / 10) [Nat.digitChar (n % 10)]]
      rw [decVal_append]
      rw [ih (n / 10) hrec]
      simp [decVal, decDigitVal_digitChar (Nat.mod_lt n (by norm_num) : n % 10 < 10)]
      omega

theorem decVal_toDigits (n : Nat) : decVal (Nat.toDigits 10 n) = n :=
  decVal_toDigitsCore (n + 1) n (Nat.lt_succ_self n)

theorem natRepr_injective : Function.Injective Nat.repr := by
  intro m n h
  have hdata : (Nat.toDigits 10 m) = (Nat.toDigits 10 n) := by
    have : (Nat.repr m).data = (Nat.repr n).data := by rw [h]
    simpa [Nat.repr, List.asString] using this
  have := congrArg decVal hdata
  rwa [decVal_toDigits, decVal_toDigits] at this

/-! ## Unique-name allocation (`RegisteredName._get_unique_name`)

Source (`namespace.py`):
```
ReservedNames = {ReservedInputName, ReservedOutputName}

def _get_unique_name(self, suggested_name: str) -> str:
  if suggested_name not in self.childs_by_name and suggested_name not in self.ReservedNames:
    return suggested_name
  for i in itertools.count(1):
    suggested_name_ = f"{suggested_name}_{i}"
    if suggested_name_ not in self.childs_by_name and suggested_name_ not in self.ReservedNames:
      return suggested_name_
```
The scope's `childs_by_name` keys are embedded as a list of strings.
Python's unbounded `itertools.count` loop is embedded with a fuel that
provably suffices (`length + 3` candidates cannot all be taken). -/

/-- `RegisteredName.ReservedInputName` from the source. -/
def ReservedInputName : String := "data"

/-- `RegisteredName.ReservedOutputName` from the source. -/
def ReservedOutputName : String := "output"

/-- `RegisteredName.ReservedNames` from the source. -/
def ReservedNames : List String := [ReservedInputName, ReservedOutputName]

/-- The candidate name `f"{suggested_name}_{i}"` from the source's loop. -/
def candidateName (suggested : String) (i : Nat) : String :=
  suggested ++ "_" ++ Nat.repr i

/-- The test `name not in self.childs_by_name and name not in self.ReservedNames`. -/
def isFreeName (childs : List String) (n : String) : Bool :=
  !(childs.contains n) && !(ReservedNames.contains n)

theorem string_contains_iff {l : List String} {a : String} :
    l.contains a = true ↔ a ∈ l := by
  simp [List.contains, List.elem_iff]

theorem isFreeName_iff (childs : List String) (n : String) :
    isFreeName childs n = true ↔ n ∉ childs ∧ n ∉ ReservedNames := by
  simp [isFreeName, List.contains, List.elem_iff]

/-- The `for i in itertools.count(1)` search loop of `_get_unique_name`,
with explicit fuel (the loop in the source is unbounded; `fuel` is chosen
large enough below that the fallback base case is never reached). -/
def findFreeFrom (childs : List String) (suggested : String) : Nat → Nat → String
  | 0, i => candidateName suggested i
  | fuel + 1, i =>
    if isFreeName childs (candidateName suggested i) then candidateName suggested i
    else findFreeFrom childs suggested fuel (i + 1)

/-- `RegisteredName._get_unique_name` from the source. -/
def get_unique_name (childs : List String) (suggested : String) : String :=
  if isFreeName childs suggested then suggested
  else findFreeFrom childs suggested (childs.length + 3) 1

theorem candidateName_injective (s : String) : Function.Injective (candidateName s) := by
  intro i j h
  apply natRepr_injective
  have : (candidateName s i).data = (candidateName s j).data := by rw [h]
  simp only [candidateName, String.data_append] at this
  exact String.ext (List.append_cancel_left this)

/-- Pigeonhole: among the candidates `1 .. childs.length + 3` at least one is
free (the taken names `childs ++ ReservedNames` number at most
`childs.length + 2`, while the candidates are pairwise distinct). -/
theorem exists_free_candidate (childs : List String) (s : String) :
    ∃ j, 1 ≤ j ∧ j ≤ childs.length + 3 ∧ isFreeName childs (candidateName s j) = true := by
  by_contra hall
  push_neg at hall
  have htaken : ∀ j, 1 ≤ j → j ≤ childs.length + 3 →
      candidateName s j ∈ childs ++ ReservedNames := by
    intro j h1 h2
    by_cases hc : candidateName s j ∈ childs
    · exact List.mem_append_left _ hc
    · by_cases hr : candidateName s j ∈ ReservedNames
      · exact List.mem_append_right _ hr
      · exact absurd ((isFreeName_iff childs (candidateName s j)).mpr ⟨hc, hr⟩)
          (hall j h1 h2)
  -- The injection from `Fin (childs.length + 3)` into the taken names.
  set L := childs ++ ReservedNames with hL
  have hcard : (Finset.univ.image (fun k : Fin (childs.length + 3) =>
      candidateName s (k.1 + 1))).card = childs.length + 3 := by
    rw [Finset.card_image_of_injective]
    · simp
    · intro a b hab
      have := candidateName_injective s hab
      exact Fin.ext (by omega)
  have hsub : (Finset.univ.image (fun k : Fin (childs.length + 3) =>
      candidateName s (k.1 + 1))) ⊆ L.toFinset := by
    intro x hx
    simp only [Finset.mem_image] at hx
    obtain ⟨k, _, rfl⟩ := hx
    rw [List.mem_toFinset]
    exact htaken (k.1 + 1) (by omega) (by omega)
  have hle := Finset.card_le_card hsub
  rw [hcard] at hle
  have hlen : L.toFinset.card ≤ L.length := L.toFinset_card_le
  have : L.length = childs.length + 2 := by simp [hL, ReservedNames]
  omega

/-- The fueled loop finds the least free candidate index when one exists
within the fuel window. -/
theorem findFreeFrom_spec (childs : List String) (s : String) :
    ∀ (fuel i : Nat),
      (∃ j, i ≤ j ∧ j < i + fuel ∧ isFreeName childs (candidateName s j) = true) →
      ∃ k, i ≤ k ∧ isFreeName childs (candidateName s k) = true ∧
        findFreeFrom childs s fuel i = candidateName s k ∧
        ∀ j, i ≤ j → j < k → isFreeName childs (candidateName s j) = false := by
  intro fuel
  induction fuel with
  | zero => intro i ⟨j, h1, h2, _⟩; omega
  | succ fuel ih =>
    intro i hex
    by_cases hfree : isFreeName childs (candidateName s i) = true
    · exact ⟨i, le_refl i, hfree, by simp [findFreeFrom, hfree], fun j h1 h2 => by omega⟩
    · have hex' : ∃ j, i + 1 ≤ j ∧ j < (i + 1) + fuel ∧
          isFreeName childs (candidateName s j) = true := by
        obtain ⟨j, h1, h2, h3⟩ := hex
        refine ⟨j, ?_, by omega, h3⟩
        rcases Nat.eq_or_lt_of_le h1 with rfl | h
        · exact absurd h3 hfree
        · omega
      obtain ⟨k, hk1, hk2, hk3, hk4⟩ := ih (i + 1) hex'
      refine ⟨k, by omega, hk2, ?_, ?_⟩
      · simp [findFreeFrom, hfree, hk3]
      · intro j h1 h2
        rcases Nat.eq_or_lt_of_le h1 with rfl | h
        · exact Bool.not_eq_true _ ▸ (by simpa using hfree)
        · exact hk4 j h h2

/-- The name returned by `_get_unique_name` is always free and non-reserved. -/
theorem get_unique_name_free (childs : List String) (s : String) :
    isFreeName childs (get_unique_name childs s) = true := by
  unfold get_unique_name
  by_cases h : isFreeName childs s = true
  · simp [h]
  · rw [Bool.not_eq_true] at h
    simp only [h, Bool.false_eq_true, if_false]
    obtain ⟨j, hj1, hj2, hj3⟩ := exists_free_candidate childs s
    obtain ⟨k, _, hk2, hk3, _⟩ :=
      findFreeFrom_spec childs s (childs.length + 3) 1 ⟨j, hj1, by omega, hj3⟩
    rw [hk3]
    exact hk2

/-- **C6.** `_get_unique_name` returns the suggested name itself when it is
neither an existing child name nor reserved, and otherwise the first of
`suggested_1, suggested_2, …` that is free and non-reserved; the returned name
is never an existing child name and never reserved; after registering the
returned name, a further call returns a different name (pairwise distinctness),
and registration only grows the taken set (a name once taken stays taken). -/
theorem register_name_unique_allocation (childs : List String) (s s₂ : String) :
    (isFreeName childs s = true → get_unique_name childs s = s)
    ∧ (isFreeName childs s = false →
        ∃ k, 1 ≤ k ∧ get_unique_name childs s = candidateName s k ∧
          isFreeName childs (candidateName s k) = true ∧
          ∀ j, 1 ≤ j → j < k → isFreeName childs (candidateName s j) = false)
    ∧ get_unique_name childs s ∉ childs
    ∧ get_unique_name childs s ∉ ReservedNames
    ∧ get_unique_name (childs ++ [get_unique_name childs s]) s₂ ≠ get_unique_name childs s
    ∧ ∀ n ∈ childs, n ∈ childs ++ [get_unique_name childs s] := by
  have hfree := get_unique_name_free childs s
  have hmem := (isFreeName_iff childs (get_unique_name childs s)).mp hfree
  refine ⟨?_, ?_, hmem.1, hmem.2, ?_, ?_⟩
  · intro h
    simp [get_unique_name, h]
  · intro h
    unfold get_unique_name
    simp only [h, Bool.false_eq_true, if_false]
    obtain ⟨j, hj1, hj2, hj3⟩ := exists_free_candidate childs s
    obtain ⟨k, hk1, hk2, hk3, hk4⟩ :=
      findFreeFrom_spec childs s (childs.length + 3) 1 ⟨j, hj1, by omega, hj3⟩
    exact ⟨k, hk1, hk3, hk2, hk4⟩
  · intro hcontra
    have h₂ := get_unique_name_free (childs ++ [get_unique_name childs s]) s₂
    have h₂mem := (isFreeName_iff _ _).mp h₂
    apply h₂mem.1
    rw [hcontra]
    exact List.mem_append_right _ (List.mem_singleton.mpr rfl)
  · intro n hn
    exact List.mem_append_left _ hn

/-- Witness for C6 at a concrete scope: `"add"` is taken, so the next
allocation returns `"add_1"`, and an allocation after registration differs
from the first. -/
theorem register_name_unique_allocation_witness :
    isFreeName ["add"] "add" = false
    ∧ get_unique_name ["add"] "add" = "add_1"
    ∧ get_unique_name (["add"] ++ [get_unique_name ["add"] "add"]) "add"
        ≠ get_unique_name ["add"] "add" := by
  refine ⟨by decide, ?_, (register_name_unique_allocation ["add"] "add" "add").2.2.2.2.1⟩
  have h := (register_name_unique_allocation ["add"] "add" "add").2.1 (by decide)
  decide

/-! ## Data model

The namespace tree of `namespace.py`, with Python object identity modelled
by explicit numeric ids and the cyclic parent pointers replaced by passing
the parent explicitly where the source follows them. -/

/-- Values occurring in RETURNN layer dictionaries (the nested mapping the
core emits): strings, lists of layer names, booleans, Python `None`, and
nested dictionaries. -/
inductive NetVal where
  | vStr : String → NetVal
  | vStrList : List String → NetVal
  | vBool : Bool → NetVal
  | vNone : NetVal
  | vDict : List (String × NetVal) → NetVal

/-- The part of a `ModuleEntry` (`naming/module.py`, which is not among the
analysed sources) that `namespace.py` and `call.py` read.  Modelled from the
spec: an operation unit is a closed tagged variant — compound
(`has_torch_forward()` true) or primitive. -/
structure ModuleData where
  id : Nat
  hasTorchForward : Bool

/-- One invocation record (`CallEntry` of `call.py`), restricted to the
fields the analysed code reads and writes: `namespaceId` is the bound
namespace node (`call.namespace`), `outputs` the resolved output tensor ids,
`returnnLayerDict` the materialized graph-node description. -/
structure CallData where
  id : Nat
  module : ModuleData
  namespaceId : Option Nat := none
  outputs : Option (List Nat) := none
  origOutputsSet : Bool := false
  returnnLayerDict : Option (List (String × NetVal)) := none

/-- Modelled from the spec: the Subnetwork Construction Context
(`ReturnnContext` of `naming/returnn_ctx.py`, not among the analysed
sources): input slot bookkeeping (each slot a traced value plus its optional
data key), the single output flag, and the in-progress declarative network
as a mapping of constructed graph-node names to their descriptions. -/
structure ReturnnCtx where
  inputSlots : List (Nat × Option String) := []
  outputDefined : Bool := false
  network : List (String × NetVal) := []

/-- A namespace node (`RegisteredName` of `namespace.py`).  `childs` is the
ordered mapping `childs_by_name`; `inputs` holds the ids of the `_inputs`
child nodes; `returnnCtx` is `None`-able as in the source. -/
inductive RegName where
  | mk (id : Nat) (name : String) (isSubnet : Bool) (isReserved : Bool)
      (wrapEnabled : Bool)
      (modules : List ModuleData) (calls : List CallData)
      (tensor : Option Nat) (returnnCtx : Option ReturnnCtx)
      (childs : List (String × RegName)) (inputs : List Nat)

def RegName.id : RegName → Nat
  | .mk i _ _ _ _ _ _ _ _ _ _ => i

def RegName.name : RegName → String
  | .mk _ n _ _ _ _ _ _ _ _ _ => n

def RegName.isSubnet : RegName → Bool
  | .mk _ _ s _ _ _ _ _ _ _ _ => s

def RegName.isReserved : RegName → Bool
  | .mk _ _ _ r _ _ _ _ _ _ _ => r

def RegName.wrapEnabled : RegName → Bool
  | .mk _ _ _ _ w _ _ _ _ _ _ => w

def RegName.modules : RegName → List ModuleData
  | .mk _ _ _ _ _ ms _ _ _ _ _ => ms

def RegName.calls : RegName → List CallData
  | .mk _ _ _ _ _ _ cs _ _ _ _ => cs

def RegName.tensor : RegName → Option Nat
  | .mk _ _ _ _ _ _ _ t _ _ _ => t

def RegName.returnnCtx : RegName → Option ReturnnCtx
  | .mk _ _ _ _ _ _ _ _ ctx _ _ => ctx

def RegName.childs : RegName → List (String × RegName)
  | .mk _ _ _ _ _ _ _ _ _ cs _ => cs

def RegName.inputs : RegName → List Nat
  | .mk _ _ _ _ _ _ _ _ _ _ ins => ins

def RegName.withModules : RegName → List ModuleData → RegName
  | .mk i n s r w _ cs t ctx ch ins, ms => .mk i n s r w ms cs t ctx ch ins

def RegName.withCalls : RegName → List CallData → RegName
  | .mk i n s r w ms _ t ctx ch ins, cs => .mk i n s r w ms cs t ctx ch ins

def RegName.withTensor : RegName → Option Nat → RegName
  | .mk i n s r w ms cs _ ctx ch ins, t => .mk i n s r w ms cs t ctx ch ins

def RegName.withCtx : RegName → Option ReturnnCtx → RegName
  | .mk i n s r w ms cs t _ ch ins, ctx => .mk i n s r w ms cs t ctx ch ins

def RegName.withChilds : RegName → List (String × RegName) → RegName
  | .mk i n s r w ms cs t ctx _ ins, ch => .mk i n s r w ms cs t ctx ch ins

def RegName.withInputs : RegName → List Nat → RegName
  | .mk i n s r w ms cs t ctx ch _, ins => .mk i n s r w ms cs t ctx ch ins

/-- The names of the node's children, i.e. the keys of `childs_by_name`. -/
def RegName.childNames (t : RegName) : List String := t.childs.map Prod.fst

/-! ## Assigning modules and calls to namespace nodes (`namespace.py`) -/

/-- `RegisteredName.assign_module` from the source.  Membership tests on
Python object lists are by identity, hence by id here.  Two side effects the
analysed claims never read are dropped: `module.names.append(self)` (a
module-registry back reference) and the recursive upward part of
`maybe_create_returnn_ctx` (the parent chain lives outside this node in the
tree embedding; the ensure is modelled at this node, following the spec's
idempotent ensure operation). -/
def assign_module (self : RegName) (m : ModuleData) : Except String RegName :=
  if self.modules.any (fun m0 => m0.id = m.id) then .ok self
  else if self.isSubnet && !m.hasTorchForward then
    .error "assert module.module.has_torch_forward()"
  else if !self.isSubnet && !self.modules.isEmpty then
    .error "assert not self.modules"
  else if !self.isSubnet && m.hasTorchForward then
    .error "assert not module.module.has_torch_forward()"
  else if self.isReserved && m.hasTorchForward then
    .error "assert not module.module.has_torch_forward() on reserved name"
  else
    let self1 := self.withModules (self.modules ++ [m])
    if self1.wrapEnabled && m.hasTorchForward && self1.returnnCtx.isNone then
      .ok (self1.withCtx (some {}))
    else .ok self1

/-- `RegisteredName.assign_call` from the source.  Returns the updated node
and the updated call, whose `namespace` now points to this node. -/
def assign_call (self : RegName) (call : CallData) : Except String (RegName × CallData) :=
  if self.calls.any (fun c => c.id = call.id) then .ok (self, call)
  else
    match assign_module self call.module with
    | .error e => .error e
    | .ok self1 =>
      if self1.isSubnet && !call.module.hasTorchForward then
        .error "assert call.module.module.has_torch_forward()"
      else if !self1.isSubnet && !self1.calls.isEmpty then
        .error "assert not self.calls"
      else if !self1.isSubnet && call.module.hasTorchForward then
        .error "assert not call.module.module.has_torch_forward()"
      else if call.namespaceId.isSome then
        .error "assert not call.namespace"
      else
        let call1 := {call with namespaceId := some self1.id}
        .ok (self1.withCalls (self1.calls ++ [call1]), call1)

/-- `RegisteredName.register_sub_call` from the source: always allocates a
fresh child, named by `_get_unique_name` applied to the unit's canonical
preferred name as seen from this scope
(`call.module.get_canonical_name(parent_namespace=self)` lives in
`naming/module.py`, outside the analysed sources, and is passed in as
`canonicalName`).  `freshId` is the identity of the new node.  Returns the
updated scope, the updated call, and the child's name. -/
def register_sub_call (self : RegName) (canonicalName : String) (freshId : Nat)
    (call : CallData) : Except String (RegName × CallData × String) :=
  if !self.isSubnet then .error "assert self.is_subnetwork()"
  else
    let name := get_unique_name self.childNames canonicalName
    let child : RegName :=
      .mk freshId name call.module.hasTorchForward false self.wrapEnabled [] [] none none [] []
    match assign_call child call with
    | .error e => .error e
    | .ok (child1, call1) =>
      .ok (self.withChilds (self.childs ++ [(name, child1)]), call1, name)

/-- `RegisteredName.find_name_for_module` from the source. -/
def find_name_for_module (self : RegName) (moduleId : Nat) :
    Except String (Option String) :=
  if !self.isSubnet then .error "assert self.is_subnetwork()"
  else .ok ((self.childs.find? (fun nc => nc.2.modules.any (fun m => m.id = moduleId))).map
    Prod.fst)

/-- Modelled from the spec: the caller of `register_sub_call`
(`Naming.push_module_call` in `naming/naming.py`, not among the analysed
sources) first looks the unit up among the scope's children; when the target
namespace node already has bound invocations (the merge case of spec
section 3) the call is assigned into that node and no child is created;
otherwise `register_sub_call` runs and always creates a child. -/
def push_module_call_naming (self : RegName) (canonicalName : String) (freshId : Nat)
    (call : CallData) : Except String (RegName × CallData × String) :=
  if !self.isSubnet then .error "assert self.is_subnetwork()"
  else
    match self.childs.find? (fun nc => nc.2.modules.any (fun m => m.id = call.module.id)) with
    | some (n, target) =>
      if target.calls.isEmpty then
        register_sub_call self canonicalName freshId call
      else
        match assign_call target call with
        | .error e => .error e
        | .ok (target1, call1) =>
          .ok (self.withChilds
            (self.childs.map (fun nc => if nc.1 = n then (n, target1) else nc)), call1, n)
    | none => register_sub_call self canonicalName freshId call

/-- Whether the scope is in the merge case for the unit: the target namespace
node found for the unit already has bound invocations. -/
def mergeCase (self : RegName) (moduleId : Nat) : Bool :=
  match self.childs.find? (fun nc => nc.2.modules.any (fun m => m.id = moduleId)) with
  | some (_, target) => !target.calls.isEmpty
  | none => false

@[simp] theorem RegName.childs_withChilds (t : RegName) (cs : List (String × RegName)) :
    (t.withChilds cs).childs = cs := by cases t; rfl

@[simp] theorem RegName.childNames_withChilds (t : RegName) (cs : List (String × RegName)) :
    (t.withChilds cs).childNames = cs.map Prod.fst := by cases t; rfl

theorem register_sub_call_ok (self : RegName) (canonical : String) (freshId : Nat)
    (call : CallData) (self' : RegName) (call' : CallData) (cname : String)
    (hok : register_sub_call self canonical freshId call = .ok (self', call', cname)) :
    cname = get_unique_name self.childNames canonical
    ∧ self'.childNames = self.childNames ++ [cname] := by
  unfold register_sub_call at hok
  by_cases hsub : self.isSubnet
  · simp only [hsub, Bool.not_true, Bool.false_eq_true, if_false] at hok
    rcases hac : assign_call
        (RegName.mk freshId (get_unique_name self.childNames canonical)
          call.module.hasTorchForward false self.wrapEnabled [] [] none none [] [])
        call with e | ⟨child1, call1⟩
    · rw [hac] at hok; simp at hok
    · rw [hac] at hok
      simp only [Except.ok.injEq, Prod.mk.injEq] at hok
      obtain ⟨h1, _, h3⟩ := hok
      subst h1
      have h3' : get_unique_name (List.map Prod.fst self.childs) canonical = cname := by
        simpa [RegName.childNames] using h3
      constructor
      · exact h3.symm
      · simp [RegName.childNames, h3']
  · simp [hsub] at hok

/-- **C1.** On a compound namespace node: in the merge case (the target
namespace node found for the unit already has bound invocations) no new child
is created; otherwise `register_sub_call` always creates exactly one new
child, named by `_get_unique_name` applied to the unit's canonical preferred
name, so even on a name-preference collision a fresh (collision-resolved,
never existing, never reserved) child name is allocated. -/
theorem register_sub_call_merge_or_new_child
    (self : RegName) (canonical : String) (freshId : Nat) (call : CallData)
    (self' : RegName) (call' : CallData) (cname : String)
    (hok : push_module_call_naming self canonical freshId call = .ok (self', call', cname)) :
    (mergeCase self call.module.id = true → self'.childNames = self.childNames)
    ∧ (mergeCase self call.module.id = false →
        cname = get_unique_name self.childNames canonical
        ∧ self'.childNames = self.childNames ++ [cname]
        ∧ cname ∉ self.childNames ∧ cname ∉ ReservedNames) := by
  unfold push_module_call_naming at hok
  by_cases hsub : self.isSubnet
  case neg => simp [hsub] at hok
  simp only [hsub, Bool.not_true, Bool.false_eq_true, if_false] at hok
  have hfreename := get_unique_name_free self.childNames canonical
  have hfreemem := (isFreeName_iff _ _).mp hfreename
  rcases hfind : self.childs.find?
      (fun nc => nc.2.modules.any (fun m => m.id = call.module.id)) with _ | ⟨n, target⟩
  · rw [hfind] at hok
    simp only [] at hok
    obtain ⟨h1, h2⟩ := register_sub_call_ok self canonical freshId call self' call' cname hok
    constructor
    · intro hmc
      exfalso
      unfold mergeCase at hmc
      rw [hfind] at hmc
      simp at hmc
    · intro _
      exact ⟨h1, h2, h1 ▸ hfreemem.1, h1 ▸ hfreemem.2⟩
  · rw [hfind] at hok
    simp only [] at hok
    by_cases hemp : target.calls.isEmpty
    · simp only [hemp, if_true] at hok
      obtain ⟨h1, h2⟩ := register_sub_call_ok self canonical freshId call self' call' cname hok
      constructor
      · intro hmc
        exfalso
        unfold mergeCase at hmc
        rw [hfind] at hmc
        simp [hemp] at hmc
      · intro _
        exact ⟨h1, h2, h1 ▸ hfreemem.1, h1 ▸ hfreemem.2⟩
    · simp only [hemp, Bool.false_eq_true, if_false] at hok
      rcases hac : assign_call target call with e | ⟨target1, call1⟩
      · rw [hac] at hok; simp at hok
      · rw [hac] at hok
        simp only [Except.ok.injEq, Prod.mk.injEq] at hok
        obtain ⟨h1, _, _⟩ := hok
        constructor
        · intro _
          subst h1
          simp only [RegName.childNames_withChilds]
          unfold RegName.childNames
          rw [List.map_map]
          apply List.map_congr_left
          intro nc _
          by_cases hn : nc.1 = n
          · simp [hn]
          · simp [hn]
        · intro hmc
          exfalso
          unfold mergeCase at hmc
          rw [hfind] at hmc
          simp [hemp] at hmc

/-- Witness for C1: in an empty compound scope (no merge target), pushing a
primitive unit's invocation creates exactly one child named `"add"`. -/
theorem register_sub_call_merge_or_new_child_witness :
    mergeCase (RegName.mk 0 "" true false false [] [] none none [] []) 5 = false
    ∧ RegName.childNames ((RegName.mk 0 "" true false false [] [] none none []
        []).withChilds [("add", RegName.mk 7 "add" false false false
          [{ id := 5, hasTorchForward := false }]
          [{ id := 1, module := { id := 5, hasTorchForward := false },
             namespaceId := some 7 }] none none [] [])])
      = (RegName.mk 0 "" true false false [] [] none none [] []).childNames ++ ["add"] := by
  refine ⟨rfl, ?_⟩
  exact ((register_sub_call_merge_or_new_child
    (RegName.mk 0 "" true false false [] [] none none [] []) "add" 7
    { id := 1, module := { id := 5, hasTorchForward := false } }
    ((RegName.mk 0 "" true false false [] [] none none []
        []).withChilds [("add", RegName.mk 7 "add" false false false
          [{ id := 5, hasTorchForward := false }]
          [{ id := 1, module := { id := 5, hasTorchForward := false },
             namespaceId := some 7 }] none none [] [])])
    { id := 1, module := { id := 5, hasTorchForward := false }, namespaceId := some 7 }
    "add" (by rfl)).2 rfl).2.1

/-! ## Input slot registration (`RegisteredName.register_input`) -/

/-- The comparison Python evaluates for the source line
`assert tensor not in self._inputs` in `register_input`: the `TensorEntry`
is tested for membership in `_inputs`, but `_inputs` holds the
`RegisteredName` slot objects, not tensors.  Membership between objects of
these two distinct classes falls back to identity comparison and is never
true, so the embedded comparison is constantly false. -/
def tensorEqRegisteredName (_tensor : Nat) (_inputNode : Nat) : Bool := false

/-- Modelled from the spec: `ReturnnContext.define_input`
(`naming/returnn_ctx.py`, not among the analysed sources) records the new
input slot of the in-progress network, a traced value plus its optional data
key. -/
def define_input (ctx : ReturnnCtx) (tensor : Nat) (dataKey : Option String) : ReturnnCtx :=
  { ctx with inputSlots := ctx.inputSlots ++ [(tensor, dataKey)] }

/-- `RegisteredName.register_input` from the source.  `freshId` is the
identity of the new reserved child node; the result is the updated scope and
the new child.  The `assign_tensor` performed by the child's constructor is
the `tensor` field of the child; its registry back-reference
(`tensor.names.append`) is covered by the registry treated in the
serialization section. -/
def register_input (self : RegName) (freshId : Nat) (tensor : Nat) :
    Except String (RegName × RegName) :=
  if !self.isSubnet then .error "assert self.is_subnetwork()"
  else if self.inputs.any (fun slot => tensorEqRegisteredName tensor slot) then
    .error "assert tensor not in self._inputs"
  else
    let idx := self.inputs.length
    let name :=
      if idx ≠ 0 then ReservedInputName ++ ":" ++ Nat.repr idx else ReservedInputName
    if self.childNames.contains name then
      .error "assert name not in self.childs_by_name"
    else
      let child : RegName :=
        .mk freshId name false true self.wrapEnabled [] [] (some tensor) none [] []
      let self1 :=
        (self.withChilds (self.childs ++ [(name, child)])).withInputs
          (self.inputs ++ [freshId])
      if self.wrapEnabled then
        match self.returnnCtx with
        | none => .error "AttributeError: self.returnn_ctx is None"
        | some ctx =>
          let ctx1 := define_input ctx tensor (if idx ≠ 0 then some (Nat.repr idx) else none)
          .ok (self1.withCtx (some ctx1), child)
      else .ok (self1, child)

@[simp] theorem RegName.inputs_withInputs (t : RegName) (ins : List Nat) :
    (t.withInputs ins).inputs = ins := by cases t; rfl

@[simp] theorem RegName.inputs_withChilds (t : RegName) (cs : List (String × RegName)) :
    (t.withChilds cs).inputs = t.inputs := by cases t; rfl

@[simp] theorem RegName.returnnCtx_withCtx (t : RegName) (c : Option ReturnnCtx) :
    (t.withCtx c).returnnCtx = c := by cases t; rfl

@[simp] theorem RegName.childs_withInputs (t : RegName) (ins : List Nat) :
    (t.withInputs ins).childs = t.childs := by cases t; rfl

@[simp] theorem RegName.childs_withCtx (t : RegName) (c : Option ReturnnCtx) :
    (t.withCtx c).childs = t.childs := by cases t; rfl

@[simp] theorem RegName.childNames_withInputs (t : RegName) (ins : List Nat) :
    (t.withInputs ins).childNames = t.childNames := by cases t; rfl

@[simp] theorem RegName.childNames_withCtx (t : RegName) (c : Option ReturnnCtx) :
    (t.withCtx c).childNames = t.childNames := by cases t; rfl

@[simp] theorem RegName.inputs_withCtx (t : RegName) (c : Option ReturnnCtx) :
    (t.withCtx c).inputs = t.inputs := by cases t; rfl

@[simp] theorem RegName.name_mk (i : Nat) (n : String) (s r w : Bool)
    (ms : List ModuleData) (cs : List CallData) (t : Option Nat)
    (ctx : Option ReturnnCtx) (ch : List (String × RegName)) (ins : List Nat) :
    (RegName.mk i n s r w ms cs t ctx ch ins).name = n := rfl

/-- **C7.** `register_input` on a compound scope creates a reserved child
bound to the traced value, named `data` for slot index `0` and `data:index`
for index ≥ 1 (the index being the number of already registered slots, i.e.
registration order), appends it to the slot list, and informs the scope's
construction context of the new slot with the data key omitted exactly when
the index is zero. -/
theorem register_input_slot_naming (self : RegName) (ctx : ReturnnCtx)
    (freshId tensor : Nat) (self' child : RegName)
    (hwrap : self.wrapEnabled = true) (hctx : self.returnnCtx = some ctx)
    (hok : register_input self freshId tensor = .ok (self', child)) :
    child.name = (if self.inputs.length = 0 then ReservedInputName
      else ReservedInputName ++ ":" ++ Nat.repr self.inputs.length)
    ∧ child.isReserved = true
    ∧ child.tensor = some tensor
    ∧ self'.childNames = self.childNames ++ [child.name]
    ∧ self'.inputs = self.inputs ++ [freshId]
    ∧ self'.returnnCtx = some (define_input ctx tensor
        (if self.inputs.length = 0 then none else some (Nat.repr self.inputs.length))) := by
  unfold register_input at hok
  by_cases hsub : self.isSubnet
  case neg => simp [hsub] at hok
  simp only [hsub, Bool.not_true, Bool.false_eq_true, if_false, tensorEqRegisteredName,
    List.any_eq_true, and_false, exists_false, if_neg, decide_False] at hok
  by_cases hfree : self.childNames.contains
      (if self.inputs.length ≠ 0 then ReservedInputName ++ ":" ++ Nat.repr self.inputs.length
        else ReservedInputName)
  · rw [if_pos hfree] at hok
    simp at hok
  · rw [if_neg hfree] at hok
    rw [hwrap] at hok
    simp only [if_true] at hok
    rw [hctx] at hok
    simp only [Except.ok.injEq, Prod.mk.injEq] at hok
    obtain ⟨h1, h2⟩ := hok
    subst h2
    by_cases hz : self.inputs.length = 0
    · simp only [hz, ne_eq, not_true_eq_false, if_false, ite_true, if_neg] at h1 ⊢
      subst h1
      simp [hz, RegName.childNames, RegName.isReserved, RegName.tensor]
    · simp only [hz, ne_eq, not_false_eq_true, if_true, ite_false, if_neg] at h1 ⊢
      subst h1
      simp [hz, RegName.childNames, RegName.isReserved, RegName.tensor]

/-- Witness for C7: a compound scope (wrap enabled, initially empty) given
the two traced values `4` and `6` registers slots named `data` and `data:1`
in registration order, with the context informed of data keys `None` then
`"1"`. -/
theorem register_input_slot_naming_witness :
    register_input (RegName.mk 0 "" true false true [] [] none (some {}) [] []) 8 4
      = .ok ((((RegName.mk 0 "" true false true [] [] none (some {}) []
          []).withChilds [("data", RegName.mk 8 "data" false true true [] [] (some 4) none [] [])]).withInputs
            [8]).withCtx (some (define_input {} 4 none)),
        RegName.mk 8 "data" false true true [] [] (some 4) none [] [])
    ∧ register_input ((((RegName.mk 0 "" true false true [] [] none (some {}) []
        []).withChilds [("data", RegName.mk 8 "data" false true true [] [] (some 4) none [] [])]).withInputs
          [8]).withCtx (some (define_input {} 4 none))) 9 6
        = .ok (((((((RegName.mk 0 "" true false true [] [] none (some {}) []
            []).withChilds [("data", RegName.mk 8 "data" false true true [] [] (some 4) none [] [])]).withInputs
              [8]).withCtx (some (define_input {} 4 none))).withChilds
                ([("data", RegName.mk 8 "data" false true true [] [] (some 4) none [] []),
                  ("data:1", RegName.mk 9 "data:1" false true true [] [] (some 6) none [] [])])).withInputs
                [8, 9]).withCtx (some (define_input (define_input {} 4 none) 6 (some "1"))),
          RegName.mk 9 "data:1" false true true [] [] (some 6) none [] [])
    ∧ (RegName.mk 8 "data" false true true [] [] (some 4) none [] []).name = "data"
    ∧ (RegName.mk 9 "data:1" false true true [] [] (some 6) none [] []).name = "data:1" := by
  refine ⟨by rfl, by rfl, ?_, ?_⟩
  · have h1 := register_input_slot_naming
      (RegName.mk 0 "" true false true [] [] none (some {}) [] []) {} 8 4
      ((((RegName.mk 0 "" true false true [] [] none (some {}) []
          []).withChilds [("data", RegName.mk 8 "data" false true true [] [] (some 4) none [] [])]).withInputs
            [8]).withCtx (some (define_input {} 4 none)))
      (RegName.mk 8 "data" false true true [] [] (some 4) none [] []) rfl rfl (by rfl)
    rw [h1.1]
    rfl
  · have h2 := register_input_slot_naming
      ((((RegName.mk 0 "" true false true [] [] none (some {}) []
        []).withChilds [("data", RegName.mk 8 "data" false true true [] [] (some 4) none [] [])]).withInputs
          [8]).withCtx (some (define_input {} 4 none)))
      (define_input {} 4 none) 9 6
      (((((((RegName.mk 0 "" true false true [] [] none (some {}) []
          []).withChilds [("data", RegName.mk 8 "data" false true true [] [] (some 4) none [] [])]).withInputs
            [8]).withCtx (some (define_input {} 4 none))).withChilds
              ([("data", RegName.mk 8 "data" false true true [] [] (some 4) none [] []),
                ("data:1", RegName.mk 9 "data:1" false true true [] [] (some 6) none [] [])])).withInputs
              [8, 9]).withCtx (some (define_input (define_input {} 4 none) 6 (some "1"))))
      (RegName.mk 9 "data:1" false true true [] [] (some 6) none [] []) rfl rfl (by rfl)
    rw [h2.1]
    rfl

/-- **C10.** Evaluation of `register_input` at the failing input: a scope
that already holds an input slot for tensor `3` accepts a second
`register_input` with the same tensor `3` — the duplicate-tensor assert
compares the tensor against `RegisteredName` objects and never fires — and a
second slot `data:1` bound to the same tensor is created instead of an
error being raised. -/
theorem register_input_duplicate_tensor_accepted :
    register_input
      (RegName.mk 0 "" true false true [] [] none
        (some { inputSlots := [(3, none)] })
        [("data", RegName.mk 8 "data" false true true [] [] (some 3) none [] [])] [8]) 9 3
    = .ok ((((RegName.mk 0 "" true false true [] [] none
          (some { inputSlots := [(3, none)] })
          [("data", RegName.mk 8 "data" false true true [] [] (some 3) none [] [])]
          [8]).withChilds
            [("data", RegName.mk 8 "data" false true true [] [] (some 3) none [] []),
             ("data:1", RegName.mk 9 "data:1" false true true [] [] (some 3) none [] [])]).withInputs
          [8, 9]).withCtx
            (some (define_input { inputSlots := [(3, none)] } 3 (some "1"))),
        RegName.mk 9 "data:1" false true true [] [] (some 3) none [] []) := by
  rfl

/-! ## Setting invocation outputs (`CallEntry.set_outputs`, `call.py`) -/

/-- Modelled from the spec: the session flags of the Global Trace State
(`Naming` in `naming/naming.py`, not among the analysed sources): retain
original pre-trace values, and enable graph materialization. -/
structure NamingFlags where
  keepOrigModuleIoTensors : Bool
  wrapToReturnnEnabled : Bool

/-- Modelled from the spec: a `TensorEntry` of `naming/tensor.py` (not among
the analysed sources): producer invocations/units and the namespace nodes the
value is known under.  `names` entries are `Option` node ids because
`set_outputs` appends `self.namespace`, which is itself optional. -/
structure TensorEntryData where
  outputFromCalls : List Nat := []
  outputFromModules : List Nat := []
  names : List (Option Nat) := []

/-- Look a tensor entry up in the registry, creating it on first observation
(spec: identity lookup/creation for traced values). -/
def regGet (reg : List (Nat × TensorEntryData)) (t : Nat) : TensorEntryData :=
  (((reg.find? (fun e => e.1 = t)).map Prod.snd).getD {})

/-- Replace (or create) a tensor entry in the registry. -/
def regSet (reg : List (Nat × TensorEntryData)) (t : Nat) (d : TensorEntryData) :
    List (Nat × TensorEntryData) :=
  if reg.any (fun e => e.1 = t) then
    reg.map (fun e => if e.1 = t then (t, d) else e)
  else reg ++ [(t, d)]

/-- `CallEntry.set_outputs` from the source.  The traced output values are
passed as the list of their tensor-registry ids (`naming.tensors[x]` of the
source is the registry access).  Returns the updated call and registry. -/
def set_outputs (flags : NamingFlags) (call : CallData) (outputsVals : List Nat)
    (reg : List (Nat × TensorEntryData)) :
    Except String (CallData × List (Nat × TensorEntryData)) :=
  if call.outputs.isSome then .error "assert self.outputs is None"
  else
    let call1 := if flags.keepOrigModuleIoTensors then
      { call with origOutputsSet := true } else call
    if flags.wrapToReturnnEnabled then
      let entry_outputs := outputsVals
      let call2 := { call1 with outputs := some entry_outputs }
      let reg1 := entry_outputs.foldl (fun r x =>
        let e := regGet r x
        regSet r x { e with
          outputFromCalls := e.outputFromCalls ++ [call.id],
          outputFromModules := e.outputFromModules ++ [call.module.id] }) reg
      let reg2 := match entry_outputs with
        | [] => reg1
        | x :: _ =>
          let e := regGet reg1 x
          if call.namespaceId ∈ e.names then reg1
          else regSet reg1 x { e with names := e.names ++ [call.namespaceId] }
      .ok (call2, reg2)
    else .ok (call1, reg)

/-- **C8 (amended).** When the session has graph materialization enabled
(`wrap_to_returnn_enabled`), a successful `set_outputs` records the outputs,
and any further `set_outputs` on the same invocation — under any session
flags — fails with the fatal `assert self.outputs is None`.  (Without
materialization the source records nothing; see the counterexample.) -/
theorem set_outputs_exactly_once (flags flags₂ : NamingFlags) (call : CallData)
    (vals vals₂ : List Nat) (reg reg₂ : List (Nat × TensorEntryData))
    (call' : CallData) (reg' : List (Nat × TensorEntryData))
    (hwrap : flags.wrapToReturnnEnabled = true)
    (hok : set_outputs flags call vals reg = .ok (call', reg')) :
    (∃ l, call'.outputs = some l)
    ∧ set_outputs flags₂ call' vals₂ reg₂ = .error "assert self.outputs is None" := by
  unfold set_outputs at hok
  by_cases hset : call.outputs.isSome
  · simp [hset] at hok
  · simp only [hset, Bool.false_eq_true, if_false, hwrap, if_true,
      Except.ok.injEq, Prod.mk.injEq] at hok
    obtain ⟨h1, _⟩ := hok
    have houts : call'.outputs = some vals := by
      subst h1; rfl
    refine ⟨⟨vals, houts⟩, ?_⟩
    unfold set_outputs
    simp [houts]

/-- Witness for C8 (amended): with graph materialization on, a first
`set_outputs` records `[4]`; the second call fails with the fatal assert. -/
theorem set_outputs_exactly_once_witness :
    set_outputs ⟨false, true⟩ { id := 1, module := { id := 2, hasTorchForward := false } } [4] []
      = .ok ({ id := 1, module := { id := 2, hasTorchForward := false }, outputs := some [4] },
        [(4, { outputFromCalls := [1], outputFromModules := [2], names := [none] })])
    ∧ set_outputs ⟨true, true⟩
        { id := 1, module := { id := 2, hasTorchForward := false }, outputs := some [4] } [9] []
      = .error "assert self.outputs is None" := by
  refine ⟨by rfl, ?_⟩
  exact (set_outputs_exactly_once ⟨false, true⟩ ⟨true, true⟩
    { id := 1, module := { id := 2, hasTorchForward := false } } [4] [9] [] []
    { id := 1, module := { id := 2, hasTorchForward := false }, outputs := some [4] }
    [(4, { outputFromCalls := [1], outputFromModules := [2], names := [none] })]
    rfl (by rfl)).2

/-- Counterexample for C8 as stated: with both session flags off
(`wrap_to_returnn_enabled = False`), a first `set_outputs` succeeds but
records nothing — the invocation record is returned unchanged — so the
literally identical second `set_outputs` call also succeeds instead of
failing; the outputs of the claim are not settable-exactly-once under every
flag combination. -/
theorem set_outputs_second_call_no_error_without_wrap :
    (set_outputs ⟨false, false⟩ { id := 1, module := { id := 2, hasTorchForward := false } }
        [4] [] = .ok ({ id := 1, module := { id := 2, hasTorchForward := false } }, []))
    ∧ ((set_outputs ⟨false, false⟩ { id := 1, module := { id := 2, hasTorchForward := false } }
        [4] []).bind (fun r => set_outputs ⟨false, false⟩ r.1 [4] r.2)
      = .ok ({ id := 1, module := { id := 2, hasTorchForward := false } }, [])) := by
  exact ⟨rfl, rfl⟩

/-! ## Applying a primitive-unit invocation (`CallEntry.apply_call`, `call.py`) -/

/-- `RegisteredName.assign_tensor` from the source: rebind the node's
tensor, removing the node from the previous tensor's names (Python
`list.remove`, first occurrence) and appending it to the new one's. -/
def assign_tensor (self : RegName) (reg : List (Nat × TensorEntryData)) (t : Nat) :
    RegName × List (Nat × TensorEntryData) :=
  let reg1 := match self.tensor with
    | some t0 =>
      let e := regGet reg t0
      regSet reg t0 { e with names := e.names.erase (some self.id) }
    | none => reg
  let e := regGet reg1 t
  (self.withTensor (some t),
    regSet reg1 t { e with names := e.names ++ [some self.id] })

/-- State at exit of the primitive branch of `apply_call`.  Python leaves
mutations made before an exception in place, so the state is reported also
when `result` is an error. -/
structure PrimApplyResult where
  result : Except String Unit
  call : CallData
  ns : RegName
  parentCtx : ReturnnCtx
  reg : List (Nat × TensorEntryData)

/-- The primitive branch of `CallEntry.apply_call` (the
`not module.has_torch_forward()` path of `call.py`), followed by the
branch-independent tail (`set_returnn_layer`, `set_outputs`).  The opaque
operation-unit collaborator appears as parameters: `layerDict` is the pure
result of `module.create_returnn_layer_dict(...)`, `resT` the tensor entry
of `module.make_output_tensor_from_returnn(...)`, and `moduleCallsCount` the
length of `self.module.calls` in the unit registry (`naming/module.py`).
`construct_layer` of the external declarative engine is modelled from the
spec as materializing exactly one graph node under the layer name in the
enclosing context's network; the engine-side parameter hoisting walk
(`layer.params`) stays outside the namespace state. -/
def apply_call_primitive (flags : NamingFlags) (call : CallData) (ns : RegName)
    (moduleCallsCount : Nat) (layerDict : List (String × NetVal))
    (parentCtx : Option ReturnnCtx) (resT : Nat)
    (reg : List (Nat × TensorEntryData)) : PrimApplyResult :=
  -- parent_namespace.maybe_create_returnn_ctx()
  let ctx := parentCtx.getD {}
  -- layer_name = self.namespace.name
  let layerName := ns.name
  if (ctx.network.map Prod.fst).contains layerName then
    { result := .error "assert layer_name not in returnn_net.layers",
      call := call, ns := ns, parentCtx := ctx, reg := reg }
  else if 2 ≤ moduleCallsCount then
    { result := .error "NotImplementedError",
      call := call, ns := ns, parentCtx := ctx, reg := reg }
  else
    let ctx1 := { ctx with network := ctx.network ++ [(layerName, NetVal.vDict layerDict)] }
    let sr := assign_tensor ns reg resT
    let call1 := { call with returnnLayerDict := some layerDict }
    match set_outputs flags call1 [resT] sr.2 with
    | .error e =>
      { result := .error e, call := call1, ns := sr.1, parentCtx := ctx1, reg := sr.2 }
    | .ok (call2, reg2) =>
      { result := .ok (), call := call2, ns := sr.1, parentCtx := ctx1, reg := reg2 }

/-- **C2.** A second invocation of a primitive-unit instance (the unit
registry already lists ≥ 2 invocations against it) is rejected with the
fatal `NotImplementedError` (unsupported reuse) before any graph node is
constructed: the enclosing network, the invocation record, the namespace
node and the tensor registry — hence the binding produced by the first
invocation — are all left exactly as they were. -/
theorem apply_call_primitive_reuse_rejected (flags : NamingFlags) (call : CallData)
    (ns : RegName) (moduleCallsCount : Nat) (layerDict : List (String × NetVal))
    (parentCtx : Option ReturnnCtx) (resT : Nat) (reg : List (Nat × TensorEntryData))
    (hcount : 2 ≤ moduleCallsCount)
    (hfresh : ((parentCtx.getD {}).network.map Prod.fst).contains ns.name = false) :
    apply_call_primitive flags call ns moduleCallsCount layerDict parentCtx resT reg
      = { result := .error "NotImplementedError", call := call, ns := ns,
          parentCtx := parentCtx.getD {}, reg := reg } := by
  have hnm : ∀ x : NetVal, (ns.name, x) ∉ (parentCtx.getD {}).network := by
    intro x hx
    have hmem : ns.name ∈ (parentCtx.getD {}).network.map Prod.fst :=
      List.mem_map.mpr ⟨(ns.name, x), hx, rfl⟩
    rw [← string_contains_iff, hfresh] at hmem
    exact Bool.false_ne_true hmem
  unfold apply_call_primitive
  simp [hfresh, hcount, hnm]

/-- Witness for C2: a primitive unit already invoked twice (`count = 2`) is
rejected with `NotImplementedError`; the enclosing network keeps only its
previous node and the registry is untouched. -/
theorem apply_call_primitive_reuse_rejected_witness :
    apply_call_primitive ⟨false, true⟩ { id := 6, module := { id := 5, hasTorchForward := false } }
      (RegName.mk 3 "conv" false false true [] [] none none [] []) 2 []
      (some { network := [("prev", NetVal.vDict [])] }) 11 []
    = { result := .error "NotImplementedError",
        call := { id := 6, module := { id := 5, hasTorchForward := false } },
        ns := RegName.mk 3 "conv" false false true [] [] none none [] [],
        parentCtx := { network := [("prev", NetVal.vDict [])] }, reg := [] } := by
  exact apply_call_primitive_reuse_rejected ⟨false, true⟩
    { id := 6, module := { id := 5, hasTorchForward := false } }
    (RegName.mk 3 "conv" false false true [] [] none none [] []) 2 []
    (some { network := [("prev", NetVal.vDict [])] }) 11 [] (by decide) (by rfl)

/-! ## Serialization-time adapter synthesis and the call stack
(`RegisteredName.register_returnn_subnet_output`, `namespace.py`) -/

/-- The call-stack discipline of `register_returnn_subnet_output`: the
synthesized identity-adapter invocation (`copy_call`) is appended to the
session's `module_call_stack`, its `apply_call` runs inside `try`, and the
`finally` block asserts the adapter is still the top entry and pops it — on
the normal return path and on the exception path alike.  The nested apply is
abstracted as `applyStep`, mapping the stack after the push to its outcome
together with the stack state at its exit. -/
def register_returnn_subnet_output_stack (stack : List Nat) (copyCallId : Nat)
    (applyStep : List Nat → Except String Unit × List Nat) :
    Except String Unit × List Nat :=
  let pushed := stack ++ [copyCallId]
  let step := applyStep pushed
  -- the finally block
  if step.2.getLast? = some copyCallId then
    (step.1, step.2.dropLast)
  else
    (.error "assert copy_call is naming.module_call_stack[-1]", step.2)

/-- **C9.** During serialization-time synthesis of the implicit identity
adapter, the synthesized invocation is pushed before being applied and
popped on every exit path: whenever the nested apply is stack-balanced
(it returns the stack as it found it), the call stack after
`register_returnn_subnet_output` equals the original stack and does not
retain the synthesized invocation, both when the apply returns normally and
when it raises (the outcome, ok or error, is passed through unchanged). -/
theorem subnet_output_stack_discipline (stack : List Nat) (copyCallId : Nat)
    (applyStep : List Nat → Except String Unit × List Nat)
    (hbal : (applyStep (stack ++ [copyCallId])).2 = stack ++ [copyCallId])
    (hnotin : copyCallId ∉ stack) :
    (register_returnn_subnet_output_stack stack copyCallId applyStep).2 = stack
    ∧ copyCallId ∉ (register_returnn_subnet_output_stack stack copyCallId applyStep).2
    ∧ (register_returnn_subnet_output_stack stack copyCallId applyStep).1
        = (applyStep (stack ++ [copyCallId])).1 := by
  refine ⟨?_, ?_, ?_⟩
  · simp [register_returnn_subnet_output_stack, hbal]
  · simpa [register_returnn_subnet_output_stack, hbal] using hnotin
  · simp [register_returnn_subnet_output_stack, hbal]

/-- Witness for C9: the adapter invocation `7` is pushed on stack `[1, 2]`;
the nested apply raises; the final stack is `[1, 2]` again, without `7`, and
the error propagates. -/
theorem subnet_output_stack_discipline_witness :
    (register_returnn_subnet_output_stack [1, 2] 7
        (fun s => (.error "exception inside nested invocation", s))).2 = [1, 2]
    ∧ 7 ∉ (register_returnn_subnet_output_stack [1, 2] 7
        (fun s => (.error "exception inside nested invocation", s))).2
    ∧ (register_returnn_subnet_output_stack [1, 2] 7
        (fun s => (.error "exception inside nested invocation", s))).1
      = .error "exception inside nested invocation" := by
  exact subnet_output_stack_discipline [1, 2] 7
    (fun s => (.error "exception inside nested invocation", s)) rfl (by decide)

/-! ## Serialization of the namespace tree
(`RegisteredName.dump_as_returnn_layer_dict` / `dump_as_returnn_net_dict`)

The tensor registry appears as a map from tensor id to the tensor's ordered
`names` list of node ids (`TensorEntry.names`); node identity is by id. -/

/-- `RegisteredName.name_for_tensor` from the source: walk the tensor's
names; the first one whose parent is this node (a child of this node, by
identity) yields its name; the source then asserts
`self.childs_by_name[name_.name] is name_`, so the child's key is its name.
A `None` entry would crash the `name_.parent` access in Python.  No match
raises `KeyError`. -/
def name_for_tensor_loop (self : RegName) : List (Option Nat) → Except String String
  | [] => .error "KeyError: tensor not found under namespace"
  | none :: _ => .error "AttributeError: NoneType has no attribute parent"
  | some nid :: rest =>
    match self.childs.find? (fun nc => nc.2.id = nid) with
    | some (n, _) => .ok n
    | none => name_for_tensor_loop self rest

/-- `RegisteredName.name_for_tensor` from the source (entry point with the
`is_subnetwork` assert). -/
def name_for_tensor (self : RegName) (reg : Nat → List (Option Nat)) (t : Nat) :
    Except String String :=
  if !self.isSubnet then .error "assert self.is_subnetwork()"
  else name_for_tensor_loop self (reg t)

/-- The input-gathering loop of `dump_as_returnn_layer_dict`: for every
`_inputs` child (found among the children by id), its bound tensor must
exist, the parent scope must exist, and the parent is asked for the name it
knows the tensor under. -/
def gather_inputs_loop (reg : Nat → List (Option Nat)) (parent : Option RegName)
    (childs : List (String × RegName)) : List Nat → Except String (List String)
  | [] => .ok []
  | nid :: rest =>
    match childs.find? (fun nc => nc.2.id = nid) with
    | none => .error "internal: _inputs entry not among childs_by_name"
    | some (_, inputChild) =>
      match inputChild.tensor with
      | none => .error "assert input_tensor"
      | some t =>
        match parent with
        | none => .error "assert self.parent"
        | some p =>
          match name_for_tensor p reg t with
          | .error e => .error e
          | .ok n =>
            match gather_inputs_loop reg parent childs rest with
            | .error e => .error e
            | .ok ns => .ok (n :: ns)

/-- The branch condition of `dump_as_returnn_layer_dict`:
`self.calls and not self.calls[0].module.module.has_torch_forward()`. -/
def firstCallPrimitive (self : RegName) : Bool :=
  match self.calls with
  | c :: _ => !c.module.hasTorchForward
  | [] => false

theorem RegName.sizeOf_childs_lt (t : RegName) : sizeOf t.childs < sizeOf t := by
  cases t with
  | mk i n s r w ms cs te ctx ch ins =>
    simp [RegName.childs]
    omega

mutual

/-- `RegisteredName.dump_as_returnn_layer_dict` from the source.  `parent`
is the node's parent pointer, passed explicitly in the tree embedding. -/
def dump_as_returnn_layer_dict (reg : Nat → List (Option Nat))
    (parent : Option RegName) (self : RegName) : Except String NetVal :=
  if firstCallPrimitive self then
    if self.calls.length ≠ 1 then .error "assert len(self.calls) == 1"
    else
      match self.calls with
      | c :: _ =>
        .ok (match c.returnnLayerDict with
          | some d => NetVal.vDict d
          | none => NetVal.vNone)
      | [] => .error "unreachable: firstCallPrimitive requires a call"
  else
    match gather_inputs_loop reg parent self.childs self.inputs with
    | .error e => .error e
    | .ok inputs =>
      match dump_as_returnn_net_dict reg self with
      | .error e => .error e
      | .ok subnetDict =>
        if inputs.length ≤ 1 then
          .ok (NetVal.vDict [("class", NetVal.vStr "subnetwork"),
            ("from", match inputs with | [] => NetVal.vStrList [] | n :: _ => NetVal.vStr n),
            ("subnetwork", NetVal.vDict subnetDict)])
        else
          .ok (NetVal.vDict [("class", NetVal.vStr "subnetwork"),
            ("from", NetVal.vStrList inputs),
            ("subnetwork", NetVal.vDict subnetDict),
            ("concat_sources", NetVal.vBool false)])
termination_by (sizeOf self, 1)

/-- `RegisteredName.dump_as_returnn_net_dict` from the source. -/
def dump_as_returnn_net_dict (reg : Nat → List (Option Nat)) (self : RegName) :
    Except String (List (String × NetVal)) :=
  dump_childs_loop reg self self.childs
termination_by (sizeOf self, 0)
decreasing_by
  apply Prod.Lex.left
  exact RegName.sizeOf_childs_lt self

/-- The child loop of `dump_as_returnn_net_dict`: children without any
bound invocation are skipped (`if not child.calls: continue`), the others
dump recursively under their local name. -/
def dump_childs_loop (reg : Nat → List (Option Nat)) (self : RegName) :
    List (String × RegName) → Except String (List (String × NetVal))
  | [] => .ok []
  | (n, c) :: rest =>
    if c.calls.isEmpty then dump_childs_loop reg self rest
    else
      match dump_as_returnn_layer_dict reg (some self) c with
      | .error e => .error e
      | .ok v =>
        match dump_childs_loop reg self rest with
        | .error e => .error e
        | .ok restDict => .ok ((n, v) :: restDict)
termination_by cs => (sizeOf cs, 2)

end

/-- **C3 (amended).** Dumping a primitive namespace node (one bound
invocation of a unit without a torch forward) returns the invocation's
stored graph-node description verbatim — including the case where no
description was materialized yet, which dumps as the null description
without any error. -/
theorem dump_primitive_returns_stored_dict (reg : Nat → List (Option Nat))
    (parent : Option RegName) (self : RegName) (c : CallData)
    (hcalls : self.calls = [c]) (hprim : c.module.hasTorchForward = false) :
    dump_as_returnn_layer_dict reg parent self
      = .ok (match c.returnnLayerDict with
          | some d => NetVal.vDict d
          | none => NetVal.vNone) := by
  have hfcp : firstCallPrimitive self = true := by
    unfold firstCallPrimitive
    rw [hcalls]
    simp [hprim]
  unfold dump_as_returnn_layer_dict
  rw [hfcp, hcalls]
  simp

/-- Witness for C3 (amended): a primitive node whose invocation holds a
materialized description dumps it verbatim. -/
theorem dump_primitive_returns_stored_dict_witness :
    dump_as_returnn_layer_dict (fun _ => []) none
      (RegName.mk 1 "relu" false false true []
        [{ id := 2, module := { id := 3, hasTorchForward := false },
           returnnLayerDict := some [("class", NetVal.vStr "activation")] }] none none [] [])
      = .ok (NetVal.vDict [("class", NetVal.vStr "activation")]) := by
  exact dump_primitive_returns_stored_dict (fun _ => []) none
    (RegName.mk 1 "relu" false false true []
      [{ id := 2, module := { id := 3, hasTorchForward := false },
         returnnLayerDict := some [("class", NetVal.vStr "activation")] }] none none [] [])
    { id := 2, module := { id := 3, hasTorchForward := false },
      returnnLayerDict := some [("class", NetVal.vStr "activation")] } rfl rfl

/-- Counterexample for C3 as stated: dumping a primitive node whose
invocation has no materialized description does not fail — the source
returns `call.returnn_layer_dict` without any existence check, so the
Python `None` comes back as the dumped description. -/
theorem dump_unmaterialized_primitive_returns_none :
    dump_as_returnn_layer_dict (fun _ => []) none
      (RegName.mk 1 "relu" false false true []
        [{ id := 2, module := { id := 3, hasTorchForward := false } }] none none [] [])
      = .ok NetVal.vNone := by
  unfold dump_as_returnn_layer_dict
  rfl

/-- The per-child characterization of `dump_as_returnn_net_dict`'s loop:
an `.ok` result has exactly the children with at least one bound invocation
as keys, in order, each mapped to that child's recursive dump. -/
theorem dump_childs_loop_spec (reg : Nat → List (Option Nat)) (self : RegName) :
    ∀ (cs : List (String × RegName)) (d : List (String × NetVal)),
      dump_childs_loop reg self cs = .ok d →
      d.map Prod.fst = (cs.filter (fun nc => !nc.2.calls.isEmpty)).map Prod.fst
      ∧ ∀ p ∈ d, ∃ c : RegName, (p.1, c) ∈ cs ∧ c.calls ≠ []
          ∧ dump_as_returnn_layer_dict reg (some self) c = .ok p.2 := by
  intro cs
  induction cs with
  | nil =>
    intro d hd
    unfold dump_childs_loop at hd
    simp only [Except.ok.injEq] at hd
    subst hd
    simp
  | cons hd tl ih =>
    intro d hdd
    obtain ⟨n, c⟩ := hd
    unfold dump_childs_loop at hdd
    by_cases hemp : c.calls.isEmpty
    · rw [if_pos hemp] at hdd
      obtain ⟨h1, h2⟩ := ih d hdd
      refine ⟨?_, ?_⟩
      · rw [h1]
        simp [List.filter_cons, hemp]
      · intro p hp
        obtain ⟨c', hc1, hc2, hc3⟩ := h2 p hp
        exact ⟨c', List.mem_cons_of_mem _ hc1, hc2, hc3⟩
    · rw [if_neg hemp] at hdd
      rcases hdl : dump_as_returnn_layer_dict reg (some self) c with e | v
      · rw [hdl] at hdd; simp at hdd
      · rw [hdl] at hdd
        rcases hrest : dump_childs_loop reg self tl with e | restD
        · rw [hrest] at hdd; simp at hdd
        · rw [hrest] at hdd
          simp only [Except.ok.injEq] at hdd
          subst hdd
          obtain ⟨h1, h2⟩ := ih restD hrest
          refine ⟨?_, ?_⟩
          · simp only [List.filter_cons]
            rw [Bool.not_eq_true] at hemp  -- unused shape guard
            simp [hemp, h1]
          · intro p hp
            rcases List.mem_cons.mp hp with rfl | hp'
            · refine ⟨c, List.mem_cons_self _ _, ?_, hdl⟩
              intro hnil
              exact hemp (by simp [hnil])
            · obtain ⟨c', hc1, hc2, hc3⟩ := h2 p hp'
              exact ⟨c', List.mem_cons_of_mem _ hc1, hc2, hc3⟩

/-- **C4.** The nested mapping produced by `dump_as_returnn_net_dict`
contains exactly one entry per child with at least one bound invocation,
keyed by the child's local name in child order (so no orphans); children
without invocations, such as bare input placeholders, are skipped; with
locally-unique child names the result has no duplicate keys; every entry is
the recursive dump of its child. -/
theorem dump_net_dict_entries (reg : Nat → List (Option Nat)) (self : RegName)
    (d : List (String × NetVal))
    (hok : dump_as_returnn_net_dict reg self = .ok d)
    (hnodup : (self.childs.map Prod.fst).Nodup) :
    d.map Prod.fst = (self.childs.filter (fun nc => !nc.2.calls.isEmpty)).map Prod.fst
    ∧ (d.map Prod.fst).Nodup
    ∧ ∀ p ∈ d, ∃ c : RegName, (p.1, c) ∈ self.childs ∧ c.calls ≠ []
        ∧ dump_as_returnn_layer_dict reg (some self) c = .ok p.2 := by
  unfold dump_as_returnn_net_dict at hok
  obtain ⟨h1, h2⟩ := dump_childs_loop_spec reg self self.childs d hok
  refine ⟨h1, ?_, h2⟩
  rw [h1]
  exact hnodup.sublist ((List.filter_sublist _).map _)

/-- **C5.** A compound namespace node dumps as a nested-scope
(`subnetwork`) node: with exactly one gathered input name the `from` field
is that name as a plain string; with two or more, `from` is the ordered name
list and the node additionally carries `concat_sources := false`; in both
shapes the recursively dumped children sit under the `subnetwork` key. -/
theorem dump_subnetwork_wrapping (reg : Nat → List (Option Nat))
    (parent : Option RegName) (self : RegName) (ns : List String)
    (sub : List (String × NetVal))
    (hbranch : firstCallPrimitive self = false)
    (hin : gather_inputs_loop reg parent self.childs self.inputs = .ok ns)
    (hsub : dump_as_returnn_net_dict reg self = .ok sub) :
    (∀ n0, ns = [n0] → dump_as_returnn_layer_dict reg parent self
        = .ok (NetVal.vDict [("class", NetVal.vStr "subnetwork"),
            ("from", NetVal.vStr n0), ("subnetwork", NetVal.vDict sub)]))
    ∧ (2 ≤ ns.length → dump_as_returnn_layer_dict reg parent self
        = .ok (NetVal.vDict [("class", NetVal.vStr "subnetwork"),
            ("from", NetVal.vStrList ns), ("subnetwork", NetVal.vDict sub),
            ("concat_sources", NetVal.vBool false)])) := by
  constructor
  · intro n0 hns
    subst hns
    unfold dump_as_returnn_layer_dict
    rw [hbranch, hin, hsub]
    simp
  · intro hlen
    unfold dump_as_returnn_layer_dict
    rw [hbranch, hin, hsub]
    simp only [Bool.false_eq_true, if_false]
    rw [if_neg (by omega)]

/-- Witness for C4: a compound scope with an input placeholder child
(no invocation) and one primitive child dumps to exactly one entry, keyed
`relu`, skipping the placeholder. -/
theorem dump_net_dict_entries_witness :
    dump_as_returnn_net_dict (fun _ => [])
      (RegName.mk 0 "net" true false true [] [] none none
        [("data", RegName.mk 20 "data" false true true [] [] (some 1) none [] []),
         ("relu", RegName.mk 22 "relu" false false true []
            [{ id := 30, module := { id := 40, hasTorchForward := false },
               returnnLayerDict := some [("class", NetVal.vStr "activation")] }]
            none none [] [])] [])
      = .ok [("relu", NetVal.vDict [("class", NetVal.vStr "activation")])]
    ∧ ([("relu", NetVal.vDict [("class", NetVal.vStr "activation")])].map Prod.fst).Nodup := by
  have hok : dump_as_returnn_net_dict (fun _ => [])
      (RegName.mk 0 "net" true false true [] [] none none
        [("data", RegName.mk 20 "data" false true true [] [] (some 1) none [] []),
         ("relu", RegName.mk 22 "relu" false false true []
            [{ id := 30, module := { id := 40, hasTorchForward := false },
               returnnLayerDict := some [("class", NetVal.vStr "activation")] }]
            none none [] [])] [])
      = .ok [("relu", NetVal.vDict [("class", NetVal.vStr "activation")])] := by
    simp [dump_as_returnn_net_dict, dump_childs_loop, dump_as_returnn_layer_dict,
      firstCallPrimitive, RegName.childs, RegName.calls]
  refine ⟨hok, ?_⟩
  exact (dump_net_dict_entries (fun _ => [])
    (RegName.mk 0 "net" true false true [] [] none none
      [("data", RegName.mk 20 "data" false true true [] [] (some 1) none [] []),
       ("relu", RegName.mk 22 "relu" false false true []
          [{ id := 30, module := { id := 40, hasTorchForward := false },
             returnnLayerDict := some [("class", NetVal.vStr "activation")] }]
          none none [] [])] [])
    [("relu", NetVal.vDict [("class", NetVal.vStr "activation")])] hok (by decide)).2.1

/-- Witness for C5: a compound scope with two input slots whose tensors the
parent knows as `x` and `y` dumps as a `subnetwork` node with
`from = ["x", "y"]` and `concat_sources = false`. -/
theorem dump_subnetwork_wrapping_witness :
    dump_as_returnn_layer_dict
      (fun t => if t = 1 then [some 10] else if t = 2 then [some 11] else [])
      (some (RegName.mk 0 "" true false true [] [] none none
        [("x", RegName.mk 10 "x" false false true [] [] none none [] []),
         ("y", RegName.mk 11 "y" false false true [] [] none none [] [])] []))
      (RegName.mk 5 "sub" true false true [] [] none none
        [("data", RegName.mk 20 "data" false true true [] [] (some 1) none [] []),
         ("data:1", RegName.mk 21 "data:1" false true true [] [] (some 2) none [] []),
         ("relu", RegName.mk 22 "relu" false false true []
            [{ id := 30, module := { id := 40, hasTorchForward := false },
               returnnLayerDict := some [("class", NetVal.vStr "activation")] }]
            none none [] [])] [20, 21])
      = .ok (NetVal.vDict [("class", NetVal.vStr "subnetwork"),
          ("from", NetVal.vStrList ["x", "y"]),
          ("subnetwork", NetVal.vDict
            [("relu", NetVal.vDict [("class", NetVal.vStr "activation")])]),
          ("concat_sources", NetVal.vBool false)]) := by
  have hin : gather_inputs_loop
      (fun t => if t = 1 then [some 10] else if t = 2 then [some 11] else [])
      (some (RegName.mk 0 "" true false true [] [] none none
        [("x", RegName.mk 10 "x" false false true [] [] none none [] []),
         ("y", RegName.mk 11 "y" false false true [] [] none none [] [])] []))
      (RegName.mk 5 "sub" true false true [] [] none none
        [("data", RegName.mk 20 "data" false true true [] [] (some 1) none [] []),
         ("data:1", RegName.mk 21 "data:1" false true true [] [] (some 2) none [] []),
         ("relu", RegName.mk 22 "relu" false false true []
            [{ id := 30, module := { id := 40, hasTorchForward := false },
               returnnLayerDict := some [("class", NetVal.vStr "activation")] }]
            none none [] [])] [20, 21]).childs [20, 21] = .ok ["x", "y"] := by
    simp [gather_inputs_loop, name_for_tensor, name_for_tensor_loop,
      RegName.childs, RegName.tensor, RegName.id, RegName.isSubnet]
  have hsub : dump_as_returnn_net_dict
      (fun t => if t = 1 then [some 10] else if t = 2 then [some 11] else [])
      (RegName.mk 5 "sub" true false true [] [] none none
        [("data", RegName.mk 20 "data" false true true [] [] (some 1) none [] []),
         ("data:1", RegName.mk 21 "data:1" false true true [] [] (some 2) none [] []),
         ("relu", RegName.mk 22 "relu" false false true []
            [{ id := 30, module := { id := 40, hasTorchForward := false },
               returnnLayerDict := some [("class", NetVal.vStr "activation")] }]
            none none [] [])] [20, 21])
      = .ok [("relu", NetVal.vDict [("class", NetVal.vStr "activation")])] := by
    simp [dump_as_returnn_net_dict, dump_childs_loop, dump_as_returnn_layer_dict,
      firstCallPrimitive, RegName.childs, RegName.calls]
  exact (dump_subnetwork_wrapping
    (fun t => if t = 1 then [some 10] else if t = 2 then [some 11] else [])
    (some (RegName.mk 0 "" true false true [] [] none none
      [("x", RegName.mk 10 "x" false false true [] [] none none [] []),
       ("y", RegName.mk 11 "y" false false true [] [] none none [] [])] []))
    (RegName.mk 5 "sub" true false true [] [] none none
      [("data", RegName.mk 20 "data" false true true [] [] (some 1) none [] []),
       ("data:1", RegName.mk 21 "data:1" false true true [] [] (some 2) none [] []),
       ("relu", RegName.mk 22 "relu" false false true []
          [{ id := 30, module := { id := 40, hasTorchForward := false },
             returnnLayerDict := some [("class", NetVal.vStr "activation")] }]
          none none [] [])] [20, 21])
    ["x", "y"] [("relu", NetVal.vDict [("class", NetVal.vStr "activation")])]
    rfl hin hsub).2 (by decide)

end PyToReturnn
